import Mathlib

/-!
Verification of the real-time audio session core of the research-notebook
front end: the PCM transport codec (`encode` / `decode`), the PCM decoder
(`decodeAudioData`, duplicated in three components), the capture-side
sample conversion from `onaudioprocess`, the playback scheduler embedded
in the live component's `onmessage` handler, and the session lifecycle
callbacks (`onopen`, `onmessage`, `onclose`, `onerror`, `stopSession`).

Bytes are modelled as natural numbers below 256, audio-clock times and
normalized samples as rationals, and 16-bit PCM samples as integers.
-/

/-! ## Definitions: transport codec (live component, lines 5-22) -/

namespace LiveInterface

/-- The base64 alphabet used by the platform `btoa` / `atob` pair that
`encode` and `decode` delegate to. -/
def b64Alphabet : List Char :=
  "ABCDEFGHIJKLMNOPQRSTUVWXYZabcdefghijklmnopqrstuvwxyz0123456789+/".toList

/-- Sextet index to base64 character; index 64 denotes the pad character. -/
def b64Char (n : Nat) : Char := b64Alphabet.getD n '='

/-- Base64 character back to its sextet index; the pad character (and any
character outside the alphabet) maps to 64, the length of the alphabet. -/
def b64Index (c : Char) : Nat := b64Alphabet.indexOf c

/-- Byte-level core of `btoa`: groups the binary string's code points in
threes and emits four sextets per group, 64 standing for a pad. -/
def btoaChunks : List Nat → List Nat
  | [] => []
  | [a] => [a / 4, a % 4 * 16, 64, 64]
  | [a, b] => [a / 4, a % 4 * 16 + b / 16, b % 16 * 4, 64]
  | a :: b :: c :: rest =>
      a / 4 :: (a % 4 * 16 + b / 16) :: (b % 16 * 4 + c / 64) :: c % 64 :: btoaChunks rest

/-- Byte-level core of `atob`: consumes four sextets at a time, honouring
pads (value 64) in the third and fourth positions. -/
def atobChunks : List Nat → List Nat
  | a :: b :: c :: d :: rest =>
      if c = 64 then [a * 4 + b / 16]
      else if d = 64 then [a * 4 + b / 16, b % 16 * 16 + c / 4]
      else (a * 4 + b / 16) :: (b % 16 * 16 + c / 4) :: (c % 4 * 64 + d) :: atobChunks rest
  | _ => []

/-- `encode` from the live component: builds a binary string from the byte
array one code unit per byte and base64-encodes it with `btoa`. -/
def encode (bytes : List Nat) : List Char := (btoaChunks bytes).map b64Char

/-- `decode` from the live component: base64-decodes the string with `atob`
and reads the resulting binary string back into a byte array. -/
def decode (base64 : List Char) : List Nat := atobChunks (base64.map b64Index)

end LiveInterface

/-! ## Definitions: PCM samples -/

/-- Reinterpretation step `new Int16Array(data.buffer)`: reads consecutive
byte pairs as little-endian signed 16-bit integers. -/
def bytesToInt16 : List Nat → List Int
  | lo :: hi :: rest =>
      (if lo + 256 * hi < 32768 then (lo + 256 * hi : Int) else (lo + 256 * hi : Int) - 65536)
        :: bytesToInt16 rest
  | _ => []

/-- Per-sample normalization used by every `decodeAudioData` copy:
`channelData[i] = dataInt16[i * numChannels + channel] / 32768.0`. -/
def pcm16ToFloat (v : Int) : ℚ := v / 32768

/-- The result of `ctx.createBuffer` after the decode loops have filled the
channel data: channel count, frame count, sample rate, and one sample array
per channel. -/
structure AudioBuffer where
  numChannels : Nat
  length : Nat
  sampleRate : ℚ
  channelData : List (List ℚ)
deriving Repr, DecidableEq

/-- Web Audio buffer duration: frame count divided by sample rate. -/
def AudioBuffer.duration (b : AudioBuffer) : ℚ := b.length / b.sampleRate

/-- Truncation toward zero, as JavaScript's ToIntegerOrInfinity performs on
assignment of a number to an `Int16Array` element. -/
def jsTrunc (q : ℚ) : Int := if 0 ≤ q then ⌊q⌋ else -⌊-q⌋

/-- ECMAScript ToInt16: reduce modulo 2^16 into [0, 65536) and reinterpret
values at or above 32768 as negative (two's-complement wraparound). -/
def toInt16 (n : Int) : Int :=
  if n % 65536 < 32768 then n % 65536 else n % 65536 - 65536

/-- Capture-side sample conversion from `onaudioprocess`:
`int16[i] = inputData[i] * 32768`, i.e. multiply by 32768, truncate toward
zero, and wrap to a signed 16-bit integer with no clamping. -/
def floatSampleToPcm16 (x : ℚ) : Int := toInt16 (jsTrunc (x * 32768))

/-- The whole `onaudioprocess` frame conversion: the loop applies
`floatSampleToPcm16` to every captured sample of the frame. -/
def onaudioprocessFrame (inputData : List ℚ) : List Int :=
  inputData.map floatSampleToPcm16

/-- Modelled from the spec's words only, for comparison with the code: a
saturating (clamping) float-to-PCM conversion, the behaviour the spec says
the code does NOT implement. -/
def satPcm16 (x : ℚ) : Int := max (-32768) (min 32767 (jsTrunc (x * 32768)))

/-- Little-endian byte pair for an in-range signed 16-bit integer, the
encoding a `Uint8Array` view of an `Int16Array` buffer exposes. -/
def int16ToBytes (v : Int) : List Nat :=
  [(v % 65536).toNat % 256, (v % 65536).toNat / 256]

/-! ## Definitions: the three duplicated `decodeAudioData` implementations
(live component lines 24-41, audio-overview component lines 20-37,
studio-hub file lines 272-281); each reinterprets the bytes as interleaved
signed 16-bit samples, computes `frameCount = dataInt16.length /
numChannels`, creates a buffer, and de-interleaves per channel dividing
each sample by 32768. -/

namespace LiveInterface

def decodeAudioData (data : List Nat) (sampleRate : ℚ) (numChannels : Nat) : AudioBuffer :=
  let dataInt16 := bytesToInt16 data
  let frameCount := dataInt16.length / numChannels
  { numChannels := numChannels
    length := frameCount
    sampleRate := sampleRate
    channelData := (List.range numChannels).map fun channel =>
      (List.range frameCount).map fun i =>
        pcm16ToFloat (dataInt16.getD (i * numChannels + channel) 0) }

end LiveInterface

namespace AudioOverview

def decodeAudioData (data : List Nat) (sampleRate : ℚ) (numChannels : Nat) : AudioBuffer :=
  let dataInt16 := bytesToInt16 data
  let frameCount := dataInt16.length / numChannels
  { numChannels := numChannels
    length := frameCount
    sampleRate := sampleRate
    channelData := (List.range numChannels).map fun channel =>
      (List.range frameCount).map fun i =>
        pcm16ToFloat (dataInt16.getD (i * numChannels + channel) 0) }

end AudioOverview

namespace StudioHub

def decodeAudioData (data : List Nat) (sampleRate : ℚ) (numChannels : Nat) : AudioBuffer :=
  let dataInt16 := bytesToInt16 data
  let frameCount := dataInt16.length / numChannels
  { numChannels := numChannels
    length := frameCount
    sampleRate := sampleRate
    channelData := (List.range numChannels).map fun channel =>
      (List.range frameCount).map fun i =>
        pcm16ToFloat (dataInt16.getD (i * numChannels + channel) 0) }

end StudioHub

/-! ## Definitions: playback scheduler and session lifecycle
(live component lines 43-115) -/

namespace LiveInterface

/-- One `AudioBufferSourceNode` scheduled via `source.start(t)`: its start
time and its buffer's duration. -/
structure Handle where
  startAt : ℚ
  duration : ℚ
deriving Repr, DecidableEq

/-- The component's mutable refs and UI state: `isActive`,
`sessionRef.current` (null or not), whether `close()` was invoked on the
transport, `nextStartTimeRef.current`, `sourcesRef.current`, and the ghost
trace of handles on which `stop()` has been called. -/
structure SessionState where
  isActive : Bool
  sessionOpen : Bool
  transportClosed : Bool
  nextStartTime : ℚ
  sources : List Handle
  stopCalls : List Handle
deriving Repr, DecidableEq

/-- Component mount state: inactive, no session, clock cursor 0, no
scheduled sources. -/
def initialState : SessionState :=
  { isActive := false, sessionOpen := false, transportClosed := false
    nextStartTime := 0, sources := [], stopCalls := [] }

/-- A concrete session state as after a successful `start()` and `onopen`:
active, with a held session whose transport is not yet closed. -/
def activeState : SessionState :=
  { isActive := true, sessionOpen := true, transportClosed := false
    nextStartTime := 0, sources := [], stopCalls := [] }

/-- A concrete session state as after `stopSession`: inactive, no held
session, transport closed. -/
def closedState : SessionState :=
  { isActive := false, sessionOpen := false, transportClosed := true
    nextStartTime := 0, sources := [], stopCalls := [] }

/-- The audio branch of `onmessage` (lines 81-89): clamp the cursor to the
live clock, start the new source there, advance the cursor by the buffer
duration, and add the source to the active set. -/
def enqueue (st : SessionState) (now d : ℚ) : SessionState :=
  let startAt := max st.nextStartTime now
  { st with nextStartTime := startAt + d
            sources := st.sources ++ [{ startAt := startAt, duration := d }] }

/-- The interruption branch of `onmessage` (lines 91-95): call `stop()` on
every source in the active set, clear the set, reset the cursor to 0. -/
def interrupt (st : SessionState) : SessionState :=
  { st with stopCalls := st.stopCalls ++ st.sources
            sources := []
            nextStartTime := 0 }

/-- An inbound server message: an optional inline audio payload and the
`interrupted` flag outlet; the handler checks the two independently. -/
structure ServerMessage where
  audioData : Option (List Nat)
  interrupted : Bool

/-- The `onmessage` callback: if the message carries inline audio data, it
is decoded at 24000 Hz mono and scheduled; if the message carries the
interrupted flag, all scheduled sources are stopped and the cursor reset.
No branch consults `isActive`. -/
def onmessage (st : SessionState) (now : ℚ) (msg : ServerMessage) : SessionState :=
  let st1 := match msg.audioData with
    | some data => enqueue st now ((decodeAudioData data 24000 1).duration)
    | none => st
  if msg.interrupted then interrupt st1 else st1

/-- The `onopen` callback: marks the session active. -/
def onopen (st : SessionState) : SessionState := { st with isActive := true }

/-- The `onclose` callback: marks the session inactive. -/
def onclose (st : SessionState) : SessionState := { st with isActive := false }

/-- The `onerror` callback: `(e) => console.error(e)` — it only logs; no
state field is touched. -/
def onerror (st : SessionState) : SessionState := st

/-- `stopSession`: if a session is held, close the transport and drop the
reference; in all cases set `isActive` to false. -/
def stopSession (st : SessionState) : SessionState :=
  let st1 := if st.sessionOpen
    then { st with sessionOpen := false, transportClosed := true }
    else st
  { st1 with isActive := false }

/-- Folding a list of (clock-time, duration) enqueue events through the
scheduler, as successive audio messages do. -/
def runEnqueues (st : SessionState) : List (ℚ × ℚ) → SessionState
  | [] => st
  | (now, d) :: rest => runEnqueues (enqueue st now d) rest

/-- Consecutive scheduled handles never overlap: each starts no earlier
than the previous one's end. -/
def noOverlap : List Handle → Prop
  | h1 :: h2 :: rest => h1.startAt + h1.duration ≤ h2.startAt ∧ noOverlap (h2 :: rest)
  | _ => True

/-- Scheduled start times are non-decreasing along the list. -/
def startsMono : List Handle → Prop
  | h1 :: h2 :: rest => h1.startAt ≤ h2.startAt ∧ startsMono (h2 :: rest)
  | _ => True

/-- Scheduler invariant maintained by `enqueue`: scheduled sources are
back-to-back in order, have non-negative durations, and all end no later
than the cursor `nextStartTime`. -/
def SchedInv (st : SessionState) : Prop :=
  noOverlap st.sources ∧ startsMono st.sources ∧
    ∀ h ∈ st.sources, 0 ≤ h.duration ∧ h.startAt + h.duration ≤ st.nextStartTime

end LiveInterface

/-! ## Theorems: transport codec round-trip (C3) -/

namespace LiveInterface

theorem b64Index_b64Char : ∀ n : Nat, n < 65 → b64Index (b64Char n) = n := by decide

theorem btoaChunks_le : ∀ bs : List Nat, (∀ b ∈ bs, b < 256) →
    ∀ s ∈ btoaChunks bs, s < 65
  | [], _, s, hs => by simp [btoaChunks] at hs
  | [a], h, s, hs => by
      have ha : a < 256 := h a (by simp)
      simp [btoaChunks] at hs
      rcases hs with h1 | h1 | h1 | h1 <;> omega
  | [a, b], h, s, hs => by
      have ha : a < 256 := h a (by simp)
      have hb : b < 256 := h b (by simp)
      simp [btoaChunks] at hs
      rcases hs with h1 | h1 | h1 | h1 <;> omega
  | a :: b :: c :: rest, h, s, hs => by
      have ha : a < 256 := h a (by simp)
      have hb : b < 256 := h b (by simp)
      have hc : c < 256 := h c (by simp)
      have ih := btoaChunks_le rest (fun x hx => h x (by simp [hx]))
      simp [btoaChunks] at hs
      rcases hs with h1 | h1 | h1 | h1 | h1
      · omega
      · omega
      · omega
      · omega
      · exact ih s h1

theorem map_eq_self_of (l : List Nat) (f : Nat → Nat) (h : ∀ a ∈ l, f a = a) :
    l.map f = l := by
  induction l with
  | nil => rfl
  | cons x xs ih =>
      simp only [List.map_cons]
      rw [h x (by simp), ih (fun a ha => h a (by simp [ha]))]

theorem atobChunks_btoaChunks : ∀ bs : List Nat, (∀ b ∈ bs, b < 256) →
    atobChunks (btoaChunks bs) = bs
  | [], _ => rfl
  | [a], h => by
      have ha : a < 256 := h a (by simp)
      simp [btoaChunks, atobChunks]
      omega
  | [a, b], h => by
      have ha : a < 256 := h a (by simp)
      have hb : b < 256 := h b (by simp)
      have h3 : b % 16 * 4 ≠ 64 := by omega
      simp [btoaChunks, atobChunks, h3]
      omega
  | a :: b :: c :: rest, h => by
      have ha : a < 256 := h a (by simp)
      have hb : b < 256 := h b (by simp)
      have hc : c < 256 := h c (by simp)
      have ih := atobChunks_btoaChunks rest (fun x hx => h x (by simp [hx]))
      have h3 : b % 16 * 4 + c / 64 ≠ 64 := by omega
      have h4 : c % 64 ≠ 64 := by omega
      simp [btoaChunks, atobChunks, h3, h4, ih]
      omega

/-- C3: for every byte sequence, decoding the transport text produced by
encoding that sequence yields the original bytes exactly:
`decode (encode bytes) = bytes`. -/
theorem c3_transport_roundtrip (bytes : List Nat) (h : ∀ b ∈ bytes, b < 256) :
    decode (encode bytes) = bytes := by
  unfold decode encode
  rw [List.map_map]
  have hmap : (btoaChunks bytes).map (b64Index ∘ b64Char) = btoaChunks bytes := by
    apply map_eq_self_of
    intro s hs
    exact b64Index_b64Char s (btoaChunks_le bytes h s hs)
  rw [hmap]
  exact atobChunks_btoaChunks bytes h

/-- Witness for C3 at the concrete byte sequence `[72, 105, 255]`. -/
theorem c3_transport_roundtrip_witness :
    (∀ b ∈ [72, 105, 255], b < 256) ∧ decode (encode [72, 105, 255]) = [72, 105, 255] :=
  ⟨by decide, c3_transport_roundtrip [72, 105, 255] (by decide)⟩

end LiveInterface

/-! ## Theorems: PCM sample conversions (C4, C5, C6) -/

theorem bytesToInt16_int16ToBytes (v : Int) (h1 : -32768 ≤ v) (h2 : v ≤ 32767) :
    bytesToInt16 (int16ToBytes v) = [v] := by
  simp only [int16ToBytes, bytesToInt16]
  have hm : (0:Int) ≤ v % 65536 := Int.emod_nonneg v (by norm_num)
  have hm2 : v % 65536 < 65536 := Int.emod_lt_of_pos v (by norm_num)
  split <;> simp <;> omega

theorem jsTrunc_intCast (v : Int) : jsTrunc (v : ℚ) = v := by
  unfold jsTrunc
  split
  · exact Int.floor_intCast v
  · rw [show (-(v:ℚ)) = ((-v : Int) : ℚ) by push_cast; ring, Int.floor_intCast]
    omega

theorem toInt16_eq_self (v : Int) (h1 : -32768 ≤ v) (h2 : v ≤ 32767) :
    toInt16 v = v := by
  unfold toInt16
  split <;> omega

/-- C4: for every in-range 16-bit signed integer sample, decoding its byte
pair via `decodeAudioData` yields the single normalized sample
`pcm16ToFloat v`, and converting that sample back via `floatSampleToPcm16`
reproduces the original integer exactly, in particular within ±1. -/
theorem c4_pcm_roundtrip (v : Int) (sampleRate : ℚ)
    (h1 : -32768 ≤ v) (h2 : v ≤ 32767) :
    (LiveInterface.decodeAudioData (int16ToBytes v) sampleRate 1).channelData
        = [[pcm16ToFloat v]]
  ∧ floatSampleToPcm16 (pcm16ToFloat v) = v
  ∧ |floatSampleToPcm16 (pcm16ToFloat v) - v| ≤ 1 := by
  have hdec := bytesToInt16_int16ToBytes v h1 h2
  have hback : floatSampleToPcm16 (pcm16ToFloat v) = v := by
    unfold floatSampleToPcm16 pcm16ToFloat
    rw [div_mul_cancel₀ _ (by norm_num : (32768:ℚ) ≠ 0), jsTrunc_intCast,
      toInt16_eq_self v h1 h2]
  refine ⟨?_, hback, by rw [hback]; simp⟩
  simp [LiveInterface.decodeAudioData, hdec, List.range_succ]

/-- Witness for C4 at the concrete sample value `-12345`. -/
theorem c4_pcm_roundtrip_witness :
    (-32768 ≤ (-12345 : Int) ∧ (-12345 : Int) ≤ 32767)
  ∧ ((LiveInterface.decodeAudioData (int16ToBytes (-12345)) 24000 1).channelData
        = [[pcm16ToFloat (-12345)]]
    ∧ floatSampleToPcm16 (pcm16ToFloat (-12345)) = -12345
    ∧ |floatSampleToPcm16 (pcm16ToFloat (-12345)) - (-12345)| ≤ 1) :=
  ⟨by decide, c4_pcm_roundtrip (-12345) 24000 (by decide) (by decide)⟩

/-- C5: in the positive overflow strip (inputs in (1, 2), which the capture
source would have had to clamp), `floatSampleToPcm16` multiplies by 32768,
truncates, and wraps to a signed 16-bit integer: the result is the
wrapped-around value — here negative — and differs from the saturated
value 32767 that a clamping conversion would return. -/
theorem c5_wraparound_no_clamp (x : ℚ) (h1 : 1 < x) (h2 : x < 2) :
    floatSampleToPcm16 x = toInt16 (jsTrunc (x * 32768))
  ∧ floatSampleToPcm16 x < 0
  ∧ satPcm16 x = 32767
  ∧ floatSampleToPcm16 x ≠ satPcm16 x := by
  have hx0 : (0:ℚ) ≤ x * 32768 := by nlinarith
  have ht : jsTrunc (x * 32768) = ⌊x * 32768⌋ := by simp [jsTrunc, hx0]
  have hlo : (32768 : Int) ≤ ⌊x * 32768⌋ := by
    apply Int.le_floor.mpr
    push_cast
    nlinarith
  have hhi : ⌊x * 32768⌋ < 65536 := by
    apply Int.floor_lt.mpr
    push_cast
    nlinarith
  have hneg : floatSampleToPcm16 x < 0 := by
    unfold floatSampleToPcm16 toInt16
    rw [ht]
    split <;> omega
  have hsat : satPcm16 x = 32767 := by
    unfold satPcm16
    rw [ht, min_eq_left (by omega), max_eq_right (by norm_num)]
  exact ⟨rfl, hneg, hsat, by rw [hsat]; omega⟩

/-- Witness for C5 at the concrete out-of-range sample `3/2`. -/
theorem c5_wraparound_no_clamp_witness :
    ((1:ℚ) < 3/2 ∧ (3/2:ℚ) < 2)
  ∧ (floatSampleToPcm16 (3/2) = toInt16 (jsTrunc ((3/2) * 32768))
    ∧ floatSampleToPcm16 (3/2) < 0
    ∧ satPcm16 (3/2) = 32767
    ∧ floatSampleToPcm16 (3/2) ≠ satPcm16 (3/2)) :=
  ⟨by norm_num, c5_wraparound_no_clamp (3/2) (by norm_num) (by norm_num)⟩

theorem pcm16ToFloat_bounds (v : Int) (h1 : -32768 ≤ v) (h2 : v < 32768) :
    -1 ≤ pcm16ToFloat v ∧ pcm16ToFloat v ≤ 1 := by
  unfold pcm16ToFloat
  constructor
  · rw [le_div_iff₀ (by norm_num : (0:ℚ) < 32768)]
    have : (-32768:ℚ) ≤ (v:ℚ) := by exact_mod_cast h1
    linarith
  · rw [div_le_one (by norm_num : (0:ℚ) < 32768)]
    have : (v:ℚ) ≤ 32768 := by exact_mod_cast h2.le
    linarith

theorem bytesToInt16_bounds : ∀ bs : List Nat, (∀ b ∈ bs, b < 256) →
    ∀ v ∈ bytesToInt16 bs, -32768 ≤ v ∧ v < 32768
  | [], _, v, hv => by simp [bytesToInt16] at hv
  | [x], _, v, hv => by simp [bytesToInt16] at hv
  | lo :: hi :: rest, h, v, hv => by
      have hlo : lo < 256 := h lo (by simp)
      have hhi : hi < 256 := h hi (by simp)
      have ih := bytesToInt16_bounds rest (fun b hb => h b (by simp [hb]))
      simp only [bytesToInt16, List.mem_cons] at hv
      rcases hv with rfl | hv
      · split <;> constructor <;> omega
      · exact ih v hv

theorem getD_bounds : ∀ l : List Int, (∀ v ∈ l, -32768 ≤ v ∧ v < 32768) →
    ∀ idx : Nat, -32768 ≤ l.getD idx 0 ∧ l.getD idx 0 < 32768
  | [], _, idx => by simp [List.getD]
  | x :: xs, h, 0 => by simpa using h x (by simp)
  | x :: xs, h, (idx + 1) => by
      simpa using getD_bounds xs (fun v hv => h v (by simp [hv])) idx

/-- C6: for every byte buffer of even length compatible with the channel
count, every sample produced by `decodeAudioData` (the live component's
copy of `pcm16ToFloatBuffer`) lies in the range [-1, 1]. -/
theorem c6_samples_normalized (data : List Nat) (sampleRate : ℚ) (numChannels : Nat)
    (hbytes : ∀ b ∈ data, b < 256) (_hlen : 2 * numChannels ∣ data.length) :
    ∀ chan ∈ (LiveInterface.decodeAudioData data sampleRate numChannels).channelData,
      ∀ s ∈ chan, -1 ≤ s ∧ s ≤ 1 := by
  intro chan hchan s hs
  simp only [LiveInterface.decodeAudioData, List.mem_map, List.mem_range] at hchan
  obtain ⟨ch, hch, rfl⟩ := hchan
  simp only [List.mem_map, List.mem_range] at hs
  obtain ⟨i, hi, rfl⟩ := hs
  have hb := getD_bounds (bytesToInt16 data) (bytesToInt16_bounds data hbytes)
    (i * numChannels + ch)
  exact pcm16ToFloat_bounds _ hb.1 hb.2

/-- Witness for C6 at the concrete byte buffer `[0, 128]` (the single
sample -32768, which decodes to exactly -1). -/
theorem c6_samples_normalized_witness :
    ((∀ b ∈ [0, 128], b < 256) ∧ 2 * 1 ∣ ([0, 128] : List Nat).length)
  ∧ (∀ chan ∈ (LiveInterface.decodeAudioData [0, 128] 24000 1).channelData,
      ∀ s ∈ chan, -1 ≤ s ∧ s ≤ 1) :=
  ⟨⟨by decide, by decide⟩, c6_samples_normalized [0, 128] 24000 1 (by decide) (by decide)⟩

/-- C10: the three textually duplicated PCM decoders — in the live
component, the audio-overview component, and the studio-hub file — are
extensionally equal: on any byte buffer, sample rate, and channel count
they produce the same buffer, channel data included. -/
theorem c10_decodeAudioData_copies_agree (data : List Nat) (sampleRate : ℚ)
    (numChannels : Nat) :
    LiveInterface.decodeAudioData data sampleRate numChannels
      = AudioOverview.decodeAudioData data sampleRate numChannels
  ∧ AudioOverview.decodeAudioData data sampleRate numChannels
      = StudioHub.decodeAudioData data sampleRate numChannels :=
  ⟨rfl, rfl⟩

/-! ## Theorems: playback scheduler (C1, C2) and session lifecycle
(C7, C8, C9) -/

namespace LiveInterface

theorem noOverlap_append : ∀ (l : List Handle) (x : Handle), noOverlap l →
    (∀ h1 ∈ l, h1.startAt + h1.duration ≤ x.startAt) → noOverlap (l ++ [x])
  | [], x, _, _ => trivial
  | [h1], x, _, hx => ⟨hx h1 (by simp), trivial⟩
  | h1 :: h2 :: rest, x, h, hx =>
      ⟨h.1, noOverlap_append (h2 :: rest) x h.2
        (fun a ha => hx a (List.mem_cons_of_mem _ ha))⟩

theorem startsMono_append : ∀ (l : List Handle) (x : Handle), startsMono l →
    (∀ h1 ∈ l, h1.startAt ≤ x.startAt) → startsMono (l ++ [x])
  | [], x, _, _ => trivial
  | [h1], x, _, hx => ⟨hx h1 (by simp), trivial⟩
  | h1 :: h2 :: rest, x, h, hx =>
      ⟨h.1, startsMono_append (h2 :: rest) x h.2
        (fun a ha => hx a (List.mem_cons_of_mem _ ha))⟩

theorem enqueue_inv (st : SessionState) (now d : ℚ) (hd : 0 ≤ d)
    (h : SchedInv st) : SchedInv (enqueue st now d) := by
  obtain ⟨hno, hmono, hall⟩ := h
  have hstart : st.nextStartTime ≤ max st.nextStartTime now := le_max_left _ _
  refine ⟨?_, ?_, ?_⟩
  · apply noOverlap_append _ _ hno
    intro h1 h1m
    calc h1.startAt + h1.duration ≤ st.nextStartTime := (hall h1 h1m).2
    _ ≤ max st.nextStartTime now := hstart
  · apply startsMono_append _ _ hmono
    intro h1 h1m
    have hh := hall h1 h1m
    calc h1.startAt ≤ h1.startAt + h1.duration := by linarith [hh.1]
    _ ≤ st.nextStartTime := hh.2
    _ ≤ max st.nextStartTime now := hstart
  · intro h1 h1m
    have hsrc : (enqueue st now d).sources
        = st.sources ++ [{ startAt := max st.nextStartTime now, duration := d }] := rfl
    have hnext : (enqueue st now d).nextStartTime = max st.nextStartTime now + d := rfl
    rw [hsrc, List.mem_append] at h1m
    rw [hnext]
    rcases h1m with hm | hm
    · have hh := hall h1 hm
      exact ⟨hh.1, by linarith [hh.2, hstart]⟩
    · simp at hm
      subst hm
      exact ⟨hd, le_refl _⟩

theorem runEnqueues_inv : ∀ (events : List (ℚ × ℚ)) (st : SessionState),
    (∀ e ∈ events, 0 ≤ e.2) → SchedInv st → SchedInv (runEnqueues st events)
  | [], _, _, h => h
  | (now, d) :: rest, st, he, h =>
      runEnqueues_inv rest (enqueue st now d)
        (fun e hee => he e (List.mem_cons_of_mem _ hee))
        (enqueue_inv st now d (he (now, d) (by simp)) h)

theorem initialState_inv : SchedInv initialState := by
  refine ⟨trivial, trivial, ?_⟩
  intro h hm
  simp [initialState] at hm

/-- C1: every enqueued segment starts at `max nextStartTime clockNow` and
advances the cursor by its duration; in the concrete scenario, segment A
(duration 2) enqueued at clock 0 sets the cursor to 2, then segment B
(duration 1) enqueued at clock 1/2 starts at 2 (not 1/2) and sets the
cursor to 3; and over any enqueue sequence with non-negative durations the
scheduled start times are non-decreasing and consecutive segments never
overlap. -/
theorem c1_scheduler (st : SessionState) (now d : ℚ) (events : List (ℚ × ℚ))
    (hdur : ∀ e ∈ events, 0 ≤ e.2) :
    (enqueue st now d).sources
        = st.sources ++ [{ startAt := max st.nextStartTime now, duration := d }]
  ∧ (enqueue st now d).nextStartTime = max st.nextStartTime now + d
  ∧ (enqueue initialState 0 2).nextStartTime = 2
  ∧ (enqueue (enqueue initialState 0 2) (1/2) 1).sources
        = [{ startAt := 0, duration := 2 }, { startAt := 2, duration := 1 }]
  ∧ (enqueue (enqueue initialState 0 2) (1/2) 1).nextStartTime = 3
  ∧ noOverlap (runEnqueues initialState events).sources
  ∧ startsMono (runEnqueues initialState events).sources := by
  have hinv := runEnqueues_inv events initialState hdur initialState_inv
  refine ⟨rfl, rfl, ?_, ?_, ?_, hinv.1, hinv.2.1⟩
  · norm_num [enqueue, initialState]
  · norm_num [enqueue, initialState, max_def]
  · norm_num [enqueue, initialState, max_def]

/-- Witness for C1 at the concrete enqueue sequence of the spec scenario:
segment A (duration 2) at clock 0, then segment B (duration 1) at clock
1/2. -/
theorem c1_scheduler_witness :
    (∀ e ∈ ([(0, 2), (1/2, 1)] : List (ℚ × ℚ)), 0 ≤ e.2)
  ∧ (noOverlap (runEnqueues initialState [(0, 2), (1/2, 1)]).sources
    ∧ startsMono (runEnqueues initialState [(0, 2), (1/2, 1)]).sources) :=
  ⟨by norm_num, ⟨(c1_scheduler initialState 0 0 [(0, 2), (1/2, 1)]
      (by norm_num)).2.2.2.2.2.1,
    (c1_scheduler initialState 0 0 [(0, 2), (1/2, 1)] (by norm_num)).2.2.2.2.2.2⟩⟩

/-- C2: an inbound interruption message stops every handle in the active
set, empties the set, resets the cursor to 0, and leaves the active flag
and the transport untouched (the session does not close); and because of
the max-with-clock clamp, the next enqueue after the interrupt starts at
the current (non-negative) clock time. -/
theorem c2_interrupt (st : SessionState) (now now2 d : ℚ) (msg : ServerMessage)
    (hmsg : msg.interrupted = true) (hnow2 : 0 ≤ now2) :
    (onmessage st now msg).sources = []
  ∧ (onmessage st now msg).nextStartTime = 0
  ∧ (onmessage st now msg).isActive = st.isActive
  ∧ (onmessage st now msg).sessionOpen = st.sessionOpen
  ∧ (onmessage st now msg).transportClosed = st.transportClosed
  ∧ (onmessage st now { audioData := none, interrupted := true }).stopCalls
      = st.stopCalls ++ st.sources
  ∧ (enqueue (onmessage st now msg) now2 d).sources
      = [{ startAt := now2, duration := d }] := by
  obtain ⟨ad, inter⟩ := msg
  simp only at hmsg
  subst hmsg
  cases ad with
  | none => simp [onmessage, interrupt, enqueue, max_eq_right hnow2]
  | some data => simp [onmessage, interrupt, enqueue, max_eq_right hnow2]

/-- Witness for C2: a state holding one scheduled source receives a pure
interruption message at clock 5; the next enqueue happens at clock 7. -/
theorem c2_interrupt_witness :
    (({ audioData := none, interrupted := true } : ServerMessage).interrupted = true
      ∧ (0:ℚ) ≤ 7)
  ∧ ((onmessage (enqueue initialState 0 2) 5
        { audioData := none, interrupted := true }).sources = []
    ∧ (onmessage (enqueue initialState 0 2) 5
        { audioData := none, interrupted := true }).nextStartTime = 0
    ∧ (onmessage (enqueue initialState 0 2) 5
        { audioData := none, interrupted := true }).isActive
          = (enqueue initialState 0 2).isActive
    ∧ (onmessage (enqueue initialState 0 2) 5
        { audioData := none, interrupted := true }).sessionOpen
          = (enqueue initialState 0 2).sessionOpen
    ∧ (onmessage (enqueue initialState 0 2) 5
        { audioData := none, interrupted := true }).transportClosed
          = (enqueue initialState 0 2).transportClosed
    ∧ (onmessage (enqueue initialState 0 2) 5
        { audioData := none, interrupted := true }).stopCalls
          = (enqueue initialState 0 2).stopCalls ++ (enqueue initialState 0 2).sources
    ∧ (enqueue (onmessage (enqueue initialState 0 2) 5
        { audioData := none, interrupted := true }) 7 1).sources
          = [{ startAt := 7, duration := 1 }]) :=
  ⟨⟨rfl, by norm_num⟩,
    c2_interrupt (enqueue initialState 0 2) 5 7 1
      { audioData := none, interrupted := true } rfl (by norm_num)⟩

end LiveInterface

namespace LiveInterface

/-- C7 counterexample: the transport error callback fires on an open,
active session, yet the session stays active — the code's `onerror` is
`(e) => console.error(e)`, which only logs; the claimed transition to the
closed (non-active) state does not happen. -/
theorem c7_counterexample :
    activeState.isActive = true ∧ (onerror activeState).isActive = true := ⟨rfl, rfl⟩

/-- C7 (amended): the transport error callback only logs the error and
leaves the whole session state — the active flag included — unchanged;
only the close callback or `stopSession` deactivate the session. -/
theorem c7_onerror_keeps_state (st : SessionState) :
    onerror st = st
  ∧ (onerror st).isActive = st.isActive
  ∧ (onclose st).isActive = false
  ∧ (stopSession st).isActive = false :=
  ⟨rfl, rfl, rfl, rfl⟩

/-- C8 counterexample: an audio message arriving while the session is not
active (closed state) is NOT dropped — the handler checks only the message
shape, so a segment is scheduled and the playback clock advances. -/
theorem c8_counterexample :
    closedState.isActive = false
  ∧ (onmessage closedState 0
        { audioData := some [0, 128], interrupted := false }).sources.length = 1
  ∧ (onmessage closedState 0
        { audioData := some [0, 128], interrupted := false }).nextStartTime ≠ 0 := by
  refine ⟨rfl, rfl, ?_⟩
  norm_num [onmessage, enqueue, closedState, AudioBuffer.duration, decodeAudioData,
    bytesToInt16]

/-- C8 (amended): an inbound message carrying an audio payload is decoded
and forwarded to the playback scheduler regardless of the session's active
state — the handler performs no active-state check, so the segment is
scheduled and the clock advanced even while the session is not active. -/
theorem c8_audio_always_forwarded (st : SessionState) (now : ℚ) (data : List Nat) :
    (onmessage st now { audioData := some data, interrupted := false }).sources
      = st.sources ++ [{ startAt := max st.nextStartTime now,
                         duration := (decodeAudioData data 24000 1).duration }]
  ∧ (onmessage st now { audioData := some data, interrupted := false }).nextStartTime
      = max st.nextStartTime now + (decodeAudioData data 24000 1).duration
  ∧ (onmessage st now { audioData := some data, interrupted := false }).isActive
      = st.isActive := by
  refine ⟨?_, ?_, ?_⟩ <;> simp [onmessage, enqueue]

/-- C9: `stopSession` called with the session active and a session held
closes the transport, drops the session reference, and deactivates; a
second `stopSession` is a no-op that leaves the state unchanged (the model
is total, so no exception is possible). -/
theorem c9_stop_idempotent (st : SessionState)
    (_hactive : st.isActive = true) (hopen : st.sessionOpen = true) :
    (stopSession st).isActive = false
  ∧ (stopSession st).sessionOpen = false
  ∧ (stopSession st).transportClosed = true
  ∧ stopSession (stopSession st) = stopSession st := by
  simp [stopSession, hopen]

/-- Witness for C9 at a concrete active session state. -/
theorem c9_stop_idempotent_witness :
    (activeState.isActive = true ∧ activeState.sessionOpen = true)
  ∧ ((stopSession activeState).isActive = false
    ∧ (stopSession activeState).sessionOpen = false
    ∧ (stopSession activeState).transportClosed = true
    ∧ stopSession (stopSession activeState) = stopSession activeState) :=
  ⟨⟨rfl, rfl⟩, c9_stop_idempotent activeState rfl rfl⟩

end LiveInterface
